import Mathlib

/-!
Shallow embedding of the checkers rules engine from `src/src/game.rs`
(`GameEngine` and its helpers), together with the value types it uses.
The value types (`Coordinate`, `GamePiece`, `PieceColor`, `Move`) and the
coordinate target generators live in the repository's `board` module, which
is not part of the provided sources; those are modelled from the spec and
marked as such.  Everything in the `GameEngine` namespace is translated
directly from `game.rs`.
-/

namespace Checkers

/-- Modelled from the spec: PieceColor is the enum with variants Black and
White (the `board` module is not in the provided sources). -/
inductive PieceColor where
  | Black : PieceColor
  | White : PieceColor
deriving DecidableEq, Repr

/-- Modelled from the spec: a Coordinate is an (x, y) grid position.  The
Rust type is a tuple struct `Coordinate(usize, usize)`; we use a pair of
naturals. -/
abbrev Coordinate := Nat × Nat

/-- Modelled from the spec: a GamePiece is a color plus a crowned flag. -/
structure GamePiece where
  color : PieceColor
  crowned : Bool
deriving DecidableEq, Repr

/-- Modelled from the spec: `GamePiece::new(color)` makes an uncrowned piece
of the given color. -/
def GamePiece.new (c : PieceColor) : GamePiece :=
  { color := c, crowned := false }

/-- Modelled from the spec: `GamePiece::crowned(p)` is a crowned copy of the
same color ("Crowning replaces a piece with a crowned copy of the same
color").  Named `mkCrowned` here because `crowned` is the field name. -/
def GamePiece.mkCrowned (p : GamePiece) : GamePiece :=
  { color := p.color, crowned := true }

/-- A Move is a (from, to) coordinate pair; `fr` and `dst` stand for the
Rust fields `from` and `to`, both keywords in Lean. -/
structure Move where
  fr : Coordinate
  dst : Coordinate
deriving DecidableEq, Repr

/-- Modelled from the spec: `Coordinate::jump_targets_from()` yields the (up
to 4) diagonal two-step target coordinates from a position, bounded to the
8×8 grid ("target coordinates must be validated as in-range by the
Coordinate jump-target generator"). -/
def jump_targets_from (c : Coordinate) : List Coordinate :=
  (((if 2 ≤ c.2 then [(c.1 + 2, c.2 - 2)] else []) ++
    [(c.1 + 2, c.2 + 2)] ++
    (if 2 ≤ c.1 ∧ 2 ≤ c.2 then [(c.1 - 2, c.2 - 2)] else []) ++
    (if 2 ≤ c.1 then [(c.1 - 2, c.2 + 2)] else [])).filter
      (fun t => t.1 ≤ 7 ∧ t.2 ≤ 7))

/-- Modelled from the spec: `Coordinate::move_targets_from()` yields the (up
to 4) diagonal one-step target coordinates from a position; upper bounds are
left for the engine to check (`valid_move` checks `tx < 8 && ty < 8`). -/
def move_targets_from (c : Coordinate) : List Coordinate :=
  ((if 1 ≤ c.1 then [(c.1 - 1, c.2 + 1)] else []) ++
   [(c.1 + 1, c.2 + 1)] ++
   (if 1 ≤ c.2 then [(c.1 + 1, c.2 - 1)] else []) ++
   (if 1 ≤ c.1 ∧ 1 ≤ c.2 then [(c.1 - 1, c.2 - 1)] else []))

/-- The 8×8 board of optional pieces, `board: [[Option<GamePiece>; 8]; 8]`,
embedded as a function from the two indices; only indices below 8 are ever
read or written by the engine. -/
abbrev Board := Nat → Nat → Option GamePiece

/-- Writing one cell of the board, `self.board[x][y] = v`. -/
def Board.set (b : Board) (x y : Nat) (v : Option GamePiece) : Board :=
  fun i j => if i = x ∧ j = y then v else b i j

/-- The engine state: board, side to move, and move counter. -/
structure GameEngine where
  board : Board
  current_turn : PieceColor
  move_count : Nat

/-- `MoveResult` returned by a successful `move_piece`. -/
structure MoveResult where
  mv : Move
  crowned : Bool
deriving DecidableEq, Repr

/-- The x coordinates of the initial White pieces zipped with their y
coordinates, `[1,3,5,7,0,2,4,6,1,3,5,7]` against `[0,0,0,0,1,1,1,1,2,2,2,2]`. -/
def whiteStart : List Coordinate :=
  [(1, 0), (3, 0), (5, 0), (7, 0), (0, 1), (2, 1), (4, 1), (6, 1),
   (1, 2), (3, 2), (5, 2), (7, 2)]

/-- The x coordinates of the initial Black pieces zipped with their y
coordinates, `[0,2,4,6,1,3,5,7,0,2,4,6]` against `[5,5,5,5,6,6,6,6,7,7,7,7]`. -/
def blackStart : List Coordinate :=
  [(0, 5), (2, 5), (4, 5), (6, 5), (1, 6), (3, 6), (5, 6), (7, 6),
   (0, 7), (2, 7), (4, 7), (6, 7)]

/-- `GameEngine::initialize_pieces`: place the 12 White then the 12 Black
starting pieces. -/
def GameEngine.initialize_pieces (g : GameEngine) : GameEngine :=
  let g1 := whiteStart.foldl
    (fun a c => { a with board := a.board.set c.1 c.2 (some (GamePiece.new PieceColor.White)) }) g
  blackStart.foldl
    (fun a c => { a with board := a.board.set c.1 c.2 (some (GamePiece.new PieceColor.Black)) }) g1

/-- `GameEngine::new`: empty board, Black to move, zero moves, then
`initialize_pieces`. -/
def GameEngine.new : GameEngine :=
  GameEngine.initialize_pieces
    { board := fun _ _ => none
      current_turn := PieceColor.Black
      move_count := 0 }

/-- `GameEngine::midpiece_coordinate`: the arithmetic midpoint when both
axis deltas have absolute value 2, otherwise none. -/
def GameEngine.midpiece_coordinate (_g : GameEngine) (fx fy tx ty : Nat) :
    Option Coordinate :=
  if ((fx : Int) - (tx : Int)).natAbs = 2 ∧ ((fy : Int) - (ty : Int)).natAbs = 2 then
    some ((fx + tx) / 2, (fy + ty) / 2)
  else
    none

/-- `GameEngine::should_crown`: White crowns on row 7, Black on row 0. -/
def GameEngine.should_crown (_g : GameEngine) (piece : GamePiece) (dest : Coordinate) : Bool :=
  match piece.color with
  | PieceColor.White => dest.2 == 7
  | PieceColor.Black => dest.2 == 0

/-- `GameEngine::crown_piece`: replace the piece at `coord`, if any, by its
crowned copy. -/
def GameEngine.crown_piece (g : GameEngine) (coord : Coordinate) : GameEngine :=
  match g.board coord.1 coord.2 with
  | some piece => { g with board := g.board.set coord.1 coord.2 (some piece.mkCrowned) }
  | none => g

/-- `GameEngine::advance_turn`: flip the side to move and bump the counter. -/
def GameEngine.advance_turn (g : GameEngine) : GameEngine :=
  { g with
    current_turn :=
      match g.current_turn with
      | PieceColor.White => PieceColor.Black
      | PieceColor.Black => PieceColor.White
    move_count := g.move_count + 1 }

/-- `GameEngine::valid_move`: the target lies on the 8×8 board and its cell
is empty. -/
def GameEngine.valid_move (g : GameEngine) (_piece : GamePiece)
    (_fr dest : Coordinate) : Bool :=
  if dest.1 < 8 ∧ dest.2 < 8 then (g.board dest.1 dest.2).isNone else false

/-- `GameEngine::valid_jump`: both axis deltas are exactly 2 in absolute
value and the midpoint cell holds a piece of the other color. -/
def GameEngine.valid_jump (g : GameEngine) (piece : GamePiece)
    (fr dest : Coordinate) : Bool :=
  if ((fr.1 : Int) - (dest.1 : Int)).natAbs = 2 ∧
      ((fr.2 : Int) - (dest.2 : Int)).natAbs = 2 then
    match g.midpiece_coordinate fr.1 fr.2 dest.1 dest.2 with
    | some m =>
      match g.board m.1 m.2 with
      | some mid_piece => mid_piece.color ≠ piece.color
      | none => false
    | none => false
  else
    false

/-- `GameEngine::valid_moves_from`: jump moves first, then simple moves,
each filtered by the corresponding validity check. -/
def GameEngine.valid_moves_from (g : GameEngine) (loc : Coordinate) : List Move :=
  match g.board loc.1 loc.2 with
  | some p =>
    ((jump_targets_from loc).filter (fun t => g.valid_jump p loc t)).map
        (fun t => { fr := loc, dst := t }) ++
      ((move_targets_from loc).filter (fun t => g.valid_move p loc t)).map
        (fun t => { fr := loc, dst := t })
  | none => []

/-- `GameEngine::legal_moves`: scan all 64 cells, column-major then row, and
collect the valid moves of every piece of the side to move. -/
def GameEngine.legal_moves (g : GameEngine) : List Move :=
  (List.range 8).flatMap (fun col =>
    (List.range 8).flatMap (fun row =>
      match g.board col row with
      | some piece =>
        if piece.color = g.current_turn then g.valid_moves_from (col, row) else []
      | none => []))

/-- The mutation part of `GameEngine::move_piece` (capture, relocation,
promotion, turn advance), factored out of the success branch: remove any
midpoint piece, move `piece` from `mv.from` to `mv.to`, crown it when the
destination is a promotion row, and advance the turn.  `piece` is the value
of the `unwrap` on `self.board[fx][fy]`. -/
def GameEngine.apply_move (g : GameEngine) (mv : Move) (piece : GamePiece) :
    GameEngine :=
  let g1 :=
    match g.midpiece_coordinate mv.fr.1 mv.fr.2 mv.dst.1 mv.dst.2 with
    | some m => { g with board := g.board.set m.1 m.2 none }
    | none => g
  let g2 := { g1 with
    board := (g1.board.set mv.dst.1 mv.dst.2 (some piece)).set mv.fr.1 mv.fr.2 none }
  let g3 := if g2.should_crown piece mv.dst then g2.crown_piece mv.dst else g2
  g3.advance_turn

/-- `GameEngine::move_piece`.  The `Except` value is the Rust
`Result<MoveResult, ()>`; the state component is the engine after the call
(`&mut self`).  The `none` branch of the inner match is the panic of the
unconditional `unwrap` on `self.board[fx][fy]` (`should_crown` ignores the
engine, so the `crowned` flag of the result is written directly). -/
def GameEngine.move_piece (g : GameEngine) (mv : Move) :
    Except Unit MoveResult × GameEngine :=
  if mv ∈ g.legal_moves then
    match g.board mv.fr.1 mv.fr.2 with
    | some piece =>
      (Except.ok { mv := mv, crowned := g.should_crown piece mv.dst },
        g.apply_move mv piece)
    | none => (Except.error (), g)
  else
    (Except.error (), g)

/-- `GameEngine::current_turn` accessor. -/
def GameEngine.currentTurn (g : GameEngine) : PieceColor :=
  g.current_turn

/-- `GameEngine::get_piece` exactly as in the source: the body is the stub
`Ok(None)` (the comment in the source reads "Your implementation here"). -/
def GameEngine.get_piece (_g : GameEngine) (_coord : Coordinate) :
    Except Unit (Option GamePiece) :=
  Except.ok none

/-- Modelled from the spec: the behaviour §4.1 prescribes for `get_piece` —
validate that the coordinate is in bounds and return the board cell, failing
with an OutOfBounds condition otherwise.  Used to compare the stub in the
source against the specified behaviour. -/
def GameEngine.get_piece_spec (g : GameEngine) (coord : Coordinate) :
    Except Unit (Option GamePiece) :=
  if coord.1 < 8 ∧ coord.2 < 8 then Except.ok (g.board coord.1 coord.2)
  else Except.error ()

/-- All 64 board coordinates, used to state properties of the initial
layout. -/
def allCells : List Coordinate :=
  (List.range 8).flatMap (fun x => (List.range 8).map (fun y => (x, y)))

/-- A one-piece demonstration state: a single uncrowned Black piece at
(1,1), Black to move.  Moving it to (0,0) reaches Black's promotion row. -/
def demoCrown : GameEngine :=
  { board := Board.set (fun _ _ => none) 1 1 (some (GamePiece.new PieceColor.Black))
    current_turn := PieceColor.Black
    move_count := 0 }

/-- The capture scenario of the spec: Black at (3,4), White at (4,5), the
rest empty, Black to move.  The jump (3,4) to (5,6) captures the White
piece. -/
def demoCapture : GameEngine :=
  { board := Board.set
      (Board.set (fun _ _ => none) 3 4 (some (GamePiece.new PieceColor.Black)))
      4 5 (some (GamePiece.new PieceColor.White))
    current_turn := PieceColor.Black
    move_count := 0 }

end Checkers

/-!
Lemmas about the embedding, followed by one theorem per claim of the
specification review.
-/

namespace Checkers

/-- Any coordinate produced by the jump-target generator is a diagonal
two-step away and on the board. -/
theorem mem_jump_targets {c t : Coordinate} (h : t ∈ jump_targets_from c) :
    ((c.1 : Int) - (t.1 : Int)).natAbs = 2 ∧ ((c.2 : Int) - (t.2 : Int)).natAbs = 2 ∧
      t.1 ≤ 7 ∧ t.2 ≤ 7 := by
  unfold jump_targets_from at h
  simp only [List.mem_filter, List.mem_append, decide_eq_true_eq] at h
  obtain ⟨hmem, hb1, hb2⟩ := h
  refine ⟨?_, ?_, hb1, hb2⟩ <;>
  · rcases hmem with ((h1 | h2) | h3) | h4
    · split_ifs at h1 with hc
      · simp only [List.mem_singleton] at h1
        subst h1
        omega
      · simp at h1
    · simp only [List.mem_singleton] at h2
      subst h2
      omega
    · split_ifs at h3 with hc
      · simp only [List.mem_singleton] at h3
        subst h3
        omega
      · simp at h3
    · split_ifs at h4 with hc
      · simp only [List.mem_singleton] at h4
        subst h4
        omega
      · simp at h4

/-- Any coordinate produced by the move-target generator is a diagonal
single step away. -/
theorem mem_move_targets {c t : Coordinate} (h : t ∈ move_targets_from c) :
    ((c.1 : Int) - (t.1 : Int)).natAbs = 1 ∧ ((c.2 : Int) - (t.2 : Int)).natAbs = 1 := by
  unfold move_targets_from at h
  simp only [List.mem_append] at h
  constructor <;>
  · rcases h with ((h1 | h2) | h3) | h4
    · split_ifs at h1 with hc
      · simp only [List.mem_singleton] at h1
        subst h1
        omega
      · simp at h1
    · simp only [List.mem_singleton] at h2
      subst h2
      omega
    · split_ifs at h3 with hc
      · simp only [List.mem_singleton] at h3
        subst h3
        omega
      · simp at h3
    · split_ifs at h4 with hc
      · simp only [List.mem_singleton] at h4
        subst h4
        omega
      · simp at h4

/-- Inversion for membership in `valid_moves_from`: the origin cell is
occupied, the move starts there, and the target passed the jump or the
simple-move check. -/
theorem mem_valid_moves_from {g : GameEngine} {loc : Coordinate} {mv : Move}
    (h : mv ∈ g.valid_moves_from loc) :
    ∃ p, g.board loc.1 loc.2 = some p ∧ mv.fr = loc ∧
      ((mv.dst ∈ jump_targets_from loc ∧ g.valid_jump p loc mv.dst = true) ∨
        (mv.dst ∈ move_targets_from loc ∧ g.valid_move p loc mv.dst = true)) := by
  unfold GameEngine.valid_moves_from at h
  cases hb : g.board loc.1 loc.2 with
  | none => rw [hb] at h; simp at h
  | some p =>
    rw [hb] at h
    refine ⟨p, rfl, ?_⟩
    simp only [List.mem_append, List.mem_map, List.mem_filter] at h
    rcases h with ⟨t, ⟨ht, hj⟩, rfl⟩ | ⟨t, ⟨ht, hm⟩, rfl⟩
    · exact ⟨rfl, Or.inl ⟨ht, hj⟩⟩
    · exact ⟨rfl, Or.inr ⟨ht, hm⟩⟩

/-- Inversion for membership in `legal_moves`: the move starts from a cell
holding a piece of the side to move and is one of that piece's valid
moves. -/
theorem mem_legal_moves {g : GameEngine} {mv : Move}
    (h : mv ∈ g.legal_moves) :
    ∃ piece, g.board mv.fr.1 mv.fr.2 = some piece ∧
      piece.color = g.current_turn ∧ mv ∈ g.valid_moves_from mv.fr := by
  unfold GameEngine.legal_moves at h
  simp only [List.mem_flatMap, List.mem_range] at h
  obtain ⟨col, hcol, row, hrow, hmem⟩ := h
  cases hb : g.board col row with
  | none => rw [hb] at hmem; simp at hmem
  | some piece =>
    rw [hb] at hmem
    dsimp only at hmem
    by_cases hc : piece.color = g.current_turn
    · rw [if_pos hc] at hmem
      have hfr : mv.fr = (col, row) := (mem_valid_moves_from hmem).choose_spec.2.1
      rw [hfr]
      exact ⟨piece, hb, hc, hfr ▸ hmem⟩
    · rw [if_neg hc] at hmem
      simp at hmem

/-- A legal move starts from a cell holding a piece of the side to move. -/
theorem legal_from_cell {g : GameEngine} {mv : Move} (h : mv ∈ g.legal_moves) :
    ∃ p, g.board mv.fr.1 mv.fr.2 = some p ∧ p.color = g.current_turn := by
  obtain ⟨p, hb, hc, _⟩ := mem_legal_moves h
  exact ⟨p, hb, hc⟩

/-- A legal move is either a diagonal two-step (a jump) or a diagonal
single step. -/
theorem legal_geometry {g : GameEngine} {mv : Move} (h : mv ∈ g.legal_moves) :
    (((mv.fr.1 : Int) - (mv.dst.1 : Int)).natAbs = 2 ∧
      ((mv.fr.2 : Int) - (mv.dst.2 : Int)).natAbs = 2) ∨
    (((mv.fr.1 : Int) - (mv.dst.1 : Int)).natAbs = 1 ∧
      ((mv.fr.2 : Int) - (mv.dst.2 : Int)).natAbs = 1) := by
  obtain ⟨_, _, _, hv⟩ := mem_legal_moves h
  obtain ⟨p, _, _, hcase⟩ := mem_valid_moves_from hv
  rcases hcase with ⟨ht, _⟩ | ⟨ht, _⟩
  · obtain ⟨h1, h2, _, _⟩ := mem_jump_targets ht
    exact Or.inl ⟨h1, h2⟩
  · obtain ⟨h1, h2⟩ := mem_move_targets ht
    exact Or.inr ⟨h1, h2⟩

/-- `advance_turn` flips the side to move. -/
theorem advance_turn_turn (g : GameEngine) :
    g.advance_turn.current_turn =
      (match g.current_turn with
        | PieceColor.White => PieceColor.Black
        | PieceColor.Black => PieceColor.White) := rfl

/-- `advance_turn` bumps the move counter. -/
theorem advance_turn_count (g : GameEngine) :
    g.advance_turn.move_count = g.move_count + 1 := rfl

/-- `advance_turn` leaves the board alone. -/
theorem advance_turn_board (g : GameEngine) :
    g.advance_turn.board = g.board := rfl

/-- `crown_piece` leaves the side to move alone. -/
theorem crown_piece_turn (g : GameEngine) (c : Coordinate) :
    (g.crown_piece c).current_turn = g.current_turn := by
  unfold GameEngine.crown_piece
  split <;> rfl

/-- `crown_piece` leaves the move counter alone. -/
theorem crown_piece_count (g : GameEngine) (c : Coordinate) :
    (g.crown_piece c).move_count = g.move_count := by
  unfold GameEngine.crown_piece
  split <;> rfl

/-- Reading the cell a `Board.set` wrote. -/
theorem set_get_eq (b : Board) (x y : Nat) (v : Option GamePiece) :
    b.set x y v x y = v := by
  simp [Board.set]

/-- Reading a cell a `Board.set` did not write. -/
theorem set_get_ne (b : Board) (x y i j : Nat) (v : Option GamePiece)
    (h : ¬(i = x ∧ j = y)) : b.set x y v i j = b i j := by
  simp [Board.set, h]

/-- The optional crowning step leaves the side to move alone. -/
theorem crown_if_turn (gg : GameEngine) (piece : GamePiece) (dest : Coordinate) :
    (if gg.should_crown piece dest = true then gg.crown_piece dest else gg).current_turn =
      gg.current_turn := by
  split
  · exact crown_piece_turn gg dest
  · rfl

/-- The optional crowning step leaves the move counter alone. -/
theorem crown_if_count (gg : GameEngine) (piece : GamePiece) (dest : Coordinate) :
    (if gg.should_crown piece dest = true then gg.crown_piece dest else gg).move_count =
      gg.move_count := by
  split
  · exact crown_piece_count gg dest
  · rfl

/-- After `apply_move` the side to move has flipped. -/
theorem apply_move_turn (g : GameEngine) (mv : Move) (piece : GamePiece) :
    (g.apply_move mv piece).current_turn =
      (match g.current_turn with
        | PieceColor.White => PieceColor.Black
        | PieceColor.Black => PieceColor.White) := by
  unfold GameEngine.apply_move
  dsimp only
  rw [advance_turn_turn, crown_if_turn]
  cases hmid : g.midpiece_coordinate mv.fr.1 mv.fr.2 mv.dst.1 mv.dst.2 <;> rfl

/-- After `apply_move` the move counter has grown by one. -/
theorem apply_move_count (g : GameEngine) (mv : Move) (piece : GamePiece) :
    (g.apply_move mv piece).move_count = g.move_count + 1 := by
  unfold GameEngine.apply_move
  dsimp only
  rw [advance_turn_count, crown_if_count]
  cases hmid : g.midpiece_coordinate mv.fr.1 mv.fr.2 mv.dst.1 mv.dst.2 <;> rfl

/-- The board after `apply_move`, cell by cell: the origin is cleared, the
destination holds the moved piece (crowned when the destination is a
promotion row), the midpoint of a jump is cleared, and every other cell is
unchanged. -/
theorem apply_move_board (g : GameEngine) (mv : Move) (piece : GamePiece)
    (hne : mv.fr.1 ≠ mv.dst.1) (x y : Nat) :
    (g.apply_move mv piece).board x y =
      (if x = mv.fr.1 ∧ y = mv.fr.2 then none
       else if x = mv.dst.1 ∧ y = mv.dst.2 then
         some (if g.should_crown piece mv.dst then piece.mkCrowned else piece)
       else
         match g.midpiece_coordinate mv.fr.1 mv.fr.2 mv.dst.1 mv.dst.2 with
         | some m => if x = m.1 ∧ y = m.2 then none else g.board x y
         | none => g.board x y) := by
  have hirrel : ∀ gg : GameEngine, GameEngine.should_crown gg = GameEngine.should_crown g :=
    fun _ => rfl
  unfold GameEngine.apply_move
  dsimp only
  rw [advance_turn_board]
  simp only [hirrel]
  cases hmid : g.midpiece_coordinate mv.fr.1 mv.fr.2 mv.dst.1 mv.dst.2 with
  | none =>
    by_cases hsc : g.should_crown piece mv.dst = true
    · rw [if_pos hsc]
      unfold GameEngine.crown_piece
      dsimp only
      rw [set_get_ne _ _ _ _ _ _ (fun hc => hne hc.1.symm), set_get_eq]
      dsimp only
      simp only [Board.set, hsc, if_true]
      split_ifs <;> first | rfl | omega | tauto
    · rw [if_neg hsc]
      dsimp only
      simp only [Board.set, hsc, if_false]
      split_ifs <;> first | rfl | omega | tauto
  | some m =>
    unfold GameEngine.midpiece_coordinate at hmid
    split_ifs at hmid with hcond
    obtain ⟨hdx, hdy⟩ := hcond
    have hm : m = ((mv.fr.1 + mv.dst.1) / 2, (mv.fr.2 + mv.dst.2) / 2) :=
      (Option.some.injEq _ _).mp hmid |>.symm
    subst hm
    by_cases hsc : g.should_crown piece mv.dst = true
    · rw [if_pos hsc]
      unfold GameEngine.crown_piece
      dsimp only
      rw [set_get_ne _ _ _ _ _ _ (fun hc => hne hc.1.symm), set_get_eq]
      dsimp only
      simp only [Board.set, hsc, if_true]
      split_ifs <;> first | rfl | omega | tauto
    · rw [if_neg hsc]
      dsimp only
      simp only [Board.set, hsc, if_false]
      split_ifs <;> first | rfl | omega | tauto

/-- `move_piece` on a move outside the legal set returns the error and the
engine untouched. -/
theorem move_piece_err {g : GameEngine} {mv : Move} (h : mv ∉ g.legal_moves) :
    g.move_piece mv = (Except.error (), g) := by
  unfold GameEngine.move_piece
  rw [if_neg h]

/-- Inversion for a successful `move_piece`: the move was legal, the origin
cell held a piece of the side to move, the result records whether it was
crowned, and the new engine is `apply_move`. -/
theorem move_piece_ok_inv {g : GameEngine} {mv : Move} {res : MoveResult} {g' : GameEngine}
    (h : g.move_piece mv = (Except.ok res, g')) :
    ∃ piece, g.board mv.fr.1 mv.fr.2 = some piece ∧ piece.color = g.current_turn ∧
      mv ∈ g.legal_moves ∧
      res = { mv := mv, crowned := g.should_crown piece mv.dst } ∧
      g' = g.apply_move mv piece := by
  by_cases hmem : mv ∈ g.legal_moves
  · obtain ⟨piece, hb, hcolor⟩ := legal_from_cell hmem
    unfold GameEngine.move_piece at h
    rw [if_pos hmem, hb] at h
    dsimp only at h
    have h1 := congrArg Prod.fst h
    have h2 := congrArg Prod.snd h
    dsimp only at h1 h2
    exact ⟨piece, hb, hcolor, hmem, (Except.ok.inj h1).symm, h2.symm⟩
  · rw [move_piece_err hmem] at h
    exact absurd (congrArg Prod.fst h) (by simp)

/-- The endpoints of a legal move lie on distinct columns. -/
theorem legal_ne_fr_dst {g : GameEngine} {mv : Move} (h : mv ∈ g.legal_moves) :
    mv.fr.1 ≠ mv.dst.1 := by
  rcases legal_geometry h with ⟨h1, _⟩ | ⟨h1, _⟩ <;> omega

end Checkers

namespace Checkers

/-- Claim C1: for every engine state and every Move mv, if mv is not in the
freshly computed legal_moves() then move_piece(mv) returns the InvalidMove
failure and board, current_turn and move_count are exactly as before the
call — no mutation occurs on failure. -/
theorem invalidMove_leaves_state_unchanged (g : GameEngine) (mv : Move)
    (h : mv ∉ g.legal_moves) :
    (g.move_piece mv).1 = Except.error () ∧
    (g.move_piece mv).2.board = g.board ∧
    (g.move_piece mv).2.current_turn = g.current_turn ∧
    (g.move_piece mv).2.move_count = g.move_count := by
  rw [move_piece_err h]
  exact ⟨rfl, rfl, rfl, rfl⟩

/-- Witness for claim C1: in the initial state, the Move from the empty
cell (0,0) to (1,1) is not legal, and applying it fails without mutation. -/
theorem invalidMove_witness :
    (Move.mk (0, 0) (1, 1) ∉ GameEngine.new.legal_moves) ∧
    ((GameEngine.new.move_piece (Move.mk (0, 0) (1, 1))).1 = Except.error () ∧
     (GameEngine.new.move_piece (Move.mk (0, 0) (1, 1))).2.board = GameEngine.new.board ∧
     (GameEngine.new.move_piece (Move.mk (0, 0) (1, 1))).2.current_turn =
       GameEngine.new.current_turn ∧
     (GameEngine.new.move_piece (Move.mk (0, 0) (1, 1))).2.move_count =
       GameEngine.new.move_count) :=
  ⟨by decide, invalidMove_leaves_state_unchanged GameEngine.new _ (by decide)⟩

/-- Claim C2: after new(), exactly 12 cells in rows 0–2 hold White pieces,
exactly 12 cells in rows 5–7 hold Black pieces, every other cell is empty
(24 occupied cells in total), no piece is crowned, current_turn is Black and
move_count is 0. -/
theorem new_initial_layout :
    (allCells.countP (fun c =>
        decide (c.2 ≤ 2) &&
        (GameEngine.new.board c.1 c.2).any (fun p => p.color == PieceColor.White)) = 12) ∧
    (allCells.countP (fun c =>
        decide (5 ≤ c.2) &&
        (GameEngine.new.board c.1 c.2).any (fun p => p.color == PieceColor.Black)) = 12) ∧
    (allCells.countP (fun c => (GameEngine.new.board c.1 c.2).isSome) = 24) ∧
    (allCells.countP (fun c =>
        (GameEngine.new.board c.1 c.2).any (fun p => p.crowned)) = 0) ∧
    GameEngine.new.current_turn = PieceColor.Black ∧
    GameEngine.new.move_count = 0 := by decide

/-- Claim C3: every Move in legal_moves() has a from coordinate whose board
cell holds a piece whose color equals current_turn. -/
theorem legal_moves_use_current_turn_pieces (g : GameEngine) (mv : Move)
    (h : mv ∈ g.legal_moves) :
    ∃ p, g.board mv.fr.1 mv.fr.2 = some p ∧ p.color = g.current_turn :=
  legal_from_cell h

/-- Witness for claim C3: the initial Black move (0,5) to (1,4) is legal and
starts from a cell holding a piece of the side to move. -/
theorem legal_moves_turn_witness :
    (Move.mk (0, 5) (1, 4) ∈ GameEngine.new.legal_moves) ∧
    (∃ p, GameEngine.new.board 0 5 = some p ∧ p.color = GameEngine.new.current_turn) :=
  ⟨by decide,
    legal_moves_use_current_turn_pieces GameEngine.new (Move.mk (0, 5) (1, 4)) (by decide)⟩

/-- Claim C4: the get_piece in the source is a stub returning Ok(None)
unconditionally, so on the out-of-bounds coordinates (8,0) and (0,8) it
returns Ok(None) instead of the OutOfBounds failure the claim requires, and
on the occupied in-bounds cell (1,0) of the initial board it returns
Ok(None) instead of the piece; `get_piece_spec` is the behaviour the claim
(and the spec) prescribes, shown to differ at those inputs. -/
theorem get_piece_stub_diverges :
    GameEngine.new.get_piece (8, 0) = Except.ok none ∧
    GameEngine.new.get_piece (0, 8) = Except.ok none ∧
    GameEngine.new.get_piece_spec (8, 0) = Except.error () ∧
    GameEngine.new.get_piece_spec (0, 8) = Except.error () ∧
    GameEngine.new.get_piece (1, 0) = Except.ok none ∧
    GameEngine.new.get_piece_spec (1, 0) =
      Except.ok (some (GamePiece.new PieceColor.White)) :=
  ⟨rfl, rfl, rfl, rfl, rfl, rfl⟩

/-- Claim C5: valid_jump(piece, from, to) is true iff the x and y
coordinates of from and to each differ by exactly 2 in absolute value and
the arithmetic midpoint cell holds a piece whose color differs from the
mover's. -/
theorem valid_jump_iff (g : GameEngine) (p : GamePiece) (fr dest : Coordinate) :
    g.valid_jump p fr dest = true ↔
      (((fr.1 : Int) - (dest.1 : Int)).natAbs = 2 ∧
       ((fr.2 : Int) - (dest.2 : Int)).natAbs = 2 ∧
       ∃ mp, g.board ((fr.1 + dest.1) / 2) ((fr.2 + dest.2) / 2) = some mp ∧
         mp.color ≠ p.color) := by
  unfold GameEngine.valid_jump GameEngine.midpiece_coordinate
  by_cases hcond : ((fr.1 : Int) - (dest.1 : Int)).natAbs = 2 ∧
      ((fr.2 : Int) - (dest.2 : Int)).natAbs = 2
  · rw [if_pos hcond, if_pos hcond]
    dsimp only
    cases hb : g.board ((fr.1 + dest.1) / 2) ((fr.2 + dest.2) / 2) with
    | none => simp [hb, hcond]
    | some mid => simp [hb, hcond]
  · rw [if_neg hcond]
    constructor
    · intro hh
      simp at hh
    · rintro ⟨h1, h2, _⟩
      exact absurd ⟨h1, h2⟩ hcond

/-- Claim C6: a successful move empties the origin and puts the moved piece
(crowned when promoted) at the destination; a jump additionally empties the
arithmetic midpoint; every other cell is unchanged. -/
theorem move_piece_board_effect (g : GameEngine) (mv : Move) (res : MoveResult)
    (g' : GameEngine) (h : g.move_piece mv = (Except.ok res, g')) :
    g'.board mv.fr.1 mv.fr.2 = none ∧
    (∃ p, g.board mv.fr.1 mv.fr.2 = some p ∧
      g'.board mv.dst.1 mv.dst.2 =
        some (if g.should_crown p mv.dst then p.mkCrowned else p)) ∧
    ((((mv.fr.1 : Int) - (mv.dst.1 : Int)).natAbs = 2 ∧
      ((mv.fr.2 : Int) - (mv.dst.2 : Int)).natAbs = 2) →
      g'.board ((mv.fr.1 + mv.dst.1) / 2) ((mv.fr.2 + mv.dst.2) / 2) = none) ∧
    (¬(((mv.fr.1 : Int) - (mv.dst.1 : Int)).natAbs = 2 ∧
      ((mv.fr.2 : Int) - (mv.dst.2 : Int)).natAbs = 2) →
      ∀ x y, ¬(x = mv.fr.1 ∧ y = mv.fr.2) → ¬(x = mv.dst.1 ∧ y = mv.dst.2) →
        g'.board x y = g.board x y) ∧
    ((((mv.fr.1 : Int) - (mv.dst.1 : Int)).natAbs = 2 ∧
      ((mv.fr.2 : Int) - (mv.dst.2 : Int)).natAbs = 2) →
      ∀ x y, ¬(x = mv.fr.1 ∧ y = mv.fr.2) → ¬(x = mv.dst.1 ∧ y = mv.dst.2) →
        ¬(x = (mv.fr.1 + mv.dst.1) / 2 ∧ y = (mv.fr.2 + mv.dst.2) / 2) →
        g'.board x y = g.board x y) := by
  obtain ⟨piece, hb, hcol, hmem, hres, hg'⟩ := move_piece_ok_inv h
  subst hg'
  have hne := legal_ne_fr_dst hmem
  refine ⟨?_, ⟨piece, hb, ?_⟩, ?_, ?_, ?_⟩
  · rw [apply_move_board g mv piece hne]
    simp
  · rw [apply_move_board g mv piece hne,
      if_neg (fun hc => hne ((hc : _ ∧ _).1.symm)), if_pos ⟨rfl, rfl⟩]
  · intro hj
    have hmid : g.midpiece_coordinate mv.fr.1 mv.fr.2 mv.dst.1 mv.dst.2 =
        some ((mv.fr.1 + mv.dst.1) / 2, (mv.fr.2 + mv.dst.2) / 2) := by
      unfold GameEngine.midpiece_coordinate
      rw [if_pos hj]
    have h1 : ¬((mv.fr.1 + mv.dst.1) / 2 = mv.fr.1 ∧
        (mv.fr.2 + mv.dst.2) / 2 = mv.fr.2) := by
      intro hc
      omega
    have h2 : ¬((mv.fr.1 + mv.dst.1) / 2 = mv.dst.1 ∧
        (mv.fr.2 + mv.dst.2) / 2 = mv.dst.2) := by
      intro hc
      omega
    rw [apply_move_board g mv piece hne, if_neg h1, if_neg h2, hmid]
    dsimp only
    rw [if_pos ⟨rfl, rfl⟩]
  · intro hnj x y hx hy
    have hmid : g.midpiece_coordinate mv.fr.1 mv.fr.2 mv.dst.1 mv.dst.2 = none := by
      unfold GameEngine.midpiece_coordinate
      rw [if_neg hnj]
    rw [apply_move_board g mv piece hne, if_neg hx, if_neg hy, hmid]
  · intro hj x y hx hy hm
    have hmid : g.midpiece_coordinate mv.fr.1 mv.fr.2 mv.dst.1 mv.dst.2 =
        some ((mv.fr.1 + mv.dst.1) / 2, (mv.fr.2 + mv.dst.2) / 2) := by
      unfold GameEngine.midpiece_coordinate
      rw [if_pos hj]
    rw [apply_move_board g mv piece hne, if_neg hx, if_neg hy, hmid]
    dsimp only
    rw [if_neg hm]

/-- Witness for claim C6: in the capture scenario (Black at (3,4), White at
(4,5)), the jump (3,4) to (5,6) empties (3,4) and (4,5) and puts the Black
piece on (5,6). -/
theorem board_effect_witness :
    (demoCapture.move_piece (Move.mk (3, 4) (5, 6))).2.board 3 4 = none ∧
    (demoCapture.move_piece (Move.mk (3, 4) (5, 6))).2.board 4 5 = none ∧
    (demoCapture.move_piece (Move.mk (3, 4) (5, 6))).2.board 5 6 =
      some (GamePiece.new PieceColor.Black) := by
  obtain ⟨h1, ⟨p, hp, h2⟩, h3, _, _⟩ :=
    move_piece_board_effect demoCapture (Move.mk (3, 4) (5, 6))
      (MoveResult.mk (Move.mk (3, 4) (5, 6)) false)
      ((demoCapture.move_piece (Move.mk (3, 4) (5, 6))).2) rfl
  obtain rfl : GamePiece.new PieceColor.Black = p :=
    Option.some.inj ((rfl : demoCapture.board 3 4 = _).symm.trans hp)
  exact ⟨h1, h3 (by decide), by simpa using h2⟩

/-- Claim C7: a successful move whose destination row is 7 for a White
piece or 0 for a Black piece leaves a crowned piece at the destination and
reports crowned = true; a crowned piece stays crowned — the moved piece
keeps its crown at the destination and a crowned piece on any untouched
cell is either still there unchanged or was captured, never uncrowned. -/
theorem move_piece_crowning (g : GameEngine) (mv : Move) (res : MoveResult)
    (g' : GameEngine) (h : g.move_piece mv = (Except.ok res, g')) :
    (∀ p, g.board mv.fr.1 mv.fr.2 = some p →
      ((p.color = PieceColor.White ∧ mv.dst.2 = 7) ∨
        (p.color = PieceColor.Black ∧ mv.dst.2 = 0)) →
      res.crowned = true ∧ g'.board mv.dst.1 mv.dst.2 = some p.mkCrowned) ∧
    (∀ p, g.board mv.fr.1 mv.fr.2 = some p → p.crowned = true →
      ∃ q, g'.board mv.dst.1 mv.dst.2 = some q ∧ q.crowned = true) ∧
    (∀ x y, ¬(x = mv.fr.1 ∧ y = mv.fr.2) → ¬(x = mv.dst.1 ∧ y = mv.dst.2) →
      ∀ p, g.board x y = some p → p.crowned = true →
        g'.board x y = none ∨ g'.board x y = some p) := by
  obtain ⟨piece, hb, hcol, hmem, hres, hg'⟩ := move_piece_ok_inv h
  subst hg'
  have hne := legal_ne_fr_dst hmem
  refine ⟨?_, ?_, ?_⟩
  · intro p hp hcase
    have hpe : piece = p := Option.some.inj (hb.symm.trans hp)
    subst hpe
    have hsc : g.should_crown piece mv.dst = true := by
      unfold GameEngine.should_crown
      rcases hcase with ⟨hc, hrow⟩ | ⟨hc, hrow⟩ <;> rw [hc] <;> simp [hrow]
    constructor
    · rw [hres]
      exact hsc
    · rw [apply_move_board g mv piece hne,
        if_neg (fun hc => hne ((hc : _ ∧ _).1.symm)), if_pos ⟨rfl, rfl⟩]
      simp [hsc]
  · intro p hp hcrown
    have hpe : piece = p := Option.some.inj (hb.symm.trans hp)
    subst hpe
    refine ⟨if g.should_crown piece mv.dst then piece.mkCrowned else piece, ?_, ?_⟩
    · rw [apply_move_board g mv piece hne,
        if_neg (fun hc => hne ((hc : _ ∧ _).1.symm)), if_pos ⟨rfl, rfl⟩]
    · split_ifs
      · rfl
      · exact hcrown
  · intro x y hx hy p hp hcrown
    rw [apply_move_board g mv piece hne, if_neg hx, if_neg hy]
    cases hmid : g.midpiece_coordinate mv.fr.1 mv.fr.2 mv.dst.1 mv.dst.2 with
    | none => exact Or.inr hp
    | some m =>
      dsimp only
      by_cases hxm : x = m.1 ∧ y = m.2
      · rw [if_pos hxm]
        exact Or.inl rfl
      · rw [if_neg hxm]
        exact Or.inr hp

/-- Witness for claim C7: a Black piece moving from (1,1) to row 0 is
crowned and the result reports crowned = true. -/
theorem crowning_witness :
    (MoveResult.mk (Move.mk (1, 1) (0, 0)) true).crowned = true ∧
    (demoCrown.move_piece (Move.mk (1, 1) (0, 0))).2.board 0 0 =
      some (GamePiece.new PieceColor.Black).mkCrowned :=
  (move_piece_crowning demoCrown (Move.mk (1, 1) (0, 0))
      (MoveResult.mk (Move.mk (1, 1) (0, 0)) true)
      ((demoCrown.move_piece (Move.mk (1, 1) (0, 0))).2) rfl).1
    (GamePiece.new PieceColor.Black) rfl (Or.inr ⟨rfl, rfl⟩)

/-- Claim C8: every successful move_piece call increments move_count by
exactly 1 and flips current_turn, capture or promotion notwithstanding. -/
theorem move_piece_turn_count (g : GameEngine) (mv : Move) (res : MoveResult)
    (g' : GameEngine) (h : g.move_piece mv = (Except.ok res, g')) :
    g'.move_count = g.move_count + 1 ∧
    (g.current_turn = PieceColor.Black → g'.current_turn = PieceColor.White) ∧
    (g.current_turn = PieceColor.White → g'.current_turn = PieceColor.Black) := by
  obtain ⟨piece, _, _, _, _, hg'⟩ := move_piece_ok_inv h
  subst hg'
  refine ⟨apply_move_count g mv piece, ?_, ?_⟩ <;>
    intro ht <;> rw [apply_move_turn, ht]

/-- Witness for claim C8: Black's opening move (0,5) to (1,4) bumps
move_count from 0 to 1 and makes it White's turn. -/
theorem turn_count_witness :
    (GameEngine.new.move_piece (Move.mk (0, 5) (1, 4))).2.move_count =
      GameEngine.new.move_count + 1 ∧
    (GameEngine.new.current_turn = PieceColor.Black →
      (GameEngine.new.move_piece (Move.mk (0, 5) (1, 4))).2.current_turn =
        PieceColor.White) ∧
    (GameEngine.new.current_turn = PieceColor.White →
      (GameEngine.new.move_piece (Move.mk (0, 5) (1, 4))).2.current_turn =
        PieceColor.Black) :=
  move_piece_turn_count GameEngine.new (Move.mk (0, 5) (1, 4))
    (MoveResult.mk (Move.mk (0, 5) (1, 4)) false)
    ((GameEngine.new.move_piece (Move.mk (0, 5) (1, 4))).2) rfl

/-- Counterexample to claim C9 as stated: in the initial state the cell
(1,2) holds a White piece while Black is to move, so the Move from (1,2) to
(0,3) is not in legal_moves() and move_piece rejects it. -/
theorem spec_scenario_move_not_legal :
    Move.mk (1, 2) (0, 3) ∉ GameEngine.new.legal_moves ∧
    (GameEngine.new.move_piece (Move.mk (1, 2) (0, 3))).1 = Except.error () ∧
    GameEngine.new.board 1 2 = some (GamePiece.new PieceColor.White) ∧
    GameEngine.new.current_turn = PieceColor.Black :=
  ⟨by decide, rfl, by decide, rfl⟩

/-- Claim C9 amended: in the initial state the Black Move from (0,5) to
(1,4) is in legal_moves(), and applying it succeeds, puts the Black piece
on (1,4), empties (0,5), makes current_turn White and move_count 1. -/
theorem initial_black_move_scenario :
    Move.mk (0, 5) (1, 4) ∈ GameEngine.new.legal_moves ∧
    (GameEngine.new.move_piece (Move.mk (0, 5) (1, 4))).1 =
      Except.ok (MoveResult.mk (Move.mk (0, 5) (1, 4)) false) ∧
    (GameEngine.new.move_piece (Move.mk (0, 5) (1, 4))).2.board 1 4 =
      some (GamePiece.new PieceColor.Black) ∧
    (GameEngine.new.move_piece (Move.mk (0, 5) (1, 4))).2.board 0 5 = none ∧
    (GameEngine.new.move_piece (Move.mk (0, 5) (1, 4))).2.current_turn =
      PieceColor.White ∧
    (GameEngine.new.move_piece (Move.mk (0, 5) (1, 4))).2.move_count = 1 :=
  ⟨by decide, rfl, by decide, by decide, by decide, by decide⟩

/-- Claim C10: a Move drawn from legal_moves() always starts from an
occupied cell, so the unconditional unwrap of board[fx][fy] inside
move_piece never panics and move_piece succeeds on such moves. -/
theorem legal_moves_unwrap_safe (g : GameEngine) (mv : Move)
    (h : mv ∈ g.legal_moves) :
    (g.board mv.fr.1 mv.fr.2).isSome = true ∧
    ∃ res g', g.move_piece mv = (Except.ok res, g') := by
  obtain ⟨p, hb, _⟩ := legal_from_cell h
  refine ⟨by rw [hb]; rfl,
    { mv := mv, crowned := g.should_crown p mv.dst }, g.apply_move mv p, ?_⟩
  unfold GameEngine.move_piece
  rw [if_pos h, hb]

/-- Witness for claim C10: the legal initial move (2,5) to (3,4) starts
from an occupied cell and move_piece succeeds on it. -/
theorem unwrap_safe_witness :
    (Move.mk (2, 5) (3, 4) ∈ GameEngine.new.legal_moves) ∧
    ((GameEngine.new.board 2 5).isSome = true ∧
     ∃ res g', GameEngine.new.move_piece (Move.mk (2, 5) (3, 4)) = (Except.ok res, g')) :=
  ⟨by decide,
    legal_moves_unwrap_safe GameEngine.new (Move.mk (2, 5) (3, 4)) (by decide)⟩

end Checkers
